import Mathlib

/-!
Verification of onnxruntime `core/common/spin_pause.h`.

A shallow embedding of the header `include/onnxruntime/core/common/spin_pause.h`
and of its only function, `onnxruntime::concurrency::SpinPause`.

The header is embedded line by line (`spin_pause_h`).  A small conditional-inclusion
pass (`preprocess`) and a small front end (`parseLines`) turn it, for a given set of
predefined target names, into the body of `SpinPause`; `SpinPause` then runs that
body on a machine state.
-/

namespace onnxruntime
namespace concurrency

/-! Targets and machine state -/

/-- Hardware instructions relevant to a busy-wait loop.  `pause` is the x86 spin-wait
hint, `yield` the ARM one; the other constructors are the operations a spin hint
must not be: a memory fence, a trap into the operating system (sleep, futex wait,
`sched_yield`) and a halt that blocks the hardware thread. -/
inductive Instr
  | pause
  | yield
  | fence
  | syscall
  | halt
deriving DecidableEq, Repr

/-- The dedicated spin-wait hint instructions. -/
def Instr.isSpinHint : Instr → Bool
  | .pause => true
  | .yield => true
  | _ => false

/-- A compilation target: the names its toolchain predefines (`__x86_64__`,
`_M_X64`, `__aarch64__`, ...) and the dedicated spin-wait instruction, if any,
that the architecture offers and the toolchain exposes.  The header only ever
looks at `predefined`. -/
structure Target where
  predefined : List String
  nativeHint : Option Instr
deriving Repr

/-- The test `defined(m)` of a `#if` line. -/
def Target.isDefined (t : Target) (m : String) : Bool :=
  decide (m ∈ t.predefined)

/-- Program variables: the state a program can observe. -/
abbrev Mem := String → Int

/-- Machine state: the program variables and the trace of hardware instructions
issued by the code under study (the trace is not observable by the program). -/
structure Machine where
  mem : Mem
  issued : List Instr

/-- Compile-time failures of the header. -/
inductive CompileError
  | strayEndif
  | unterminatedIf
  | headerNotFound (h : String)
  | undeclared (f : String)
  | statementOutsideFunction
  | strayBrace
  | unclosedScope
  | noSpinPause
  | directiveLeft
deriving DecidableEq, Repr

/-- Outcomes of a call other than a normal return: there is no function to call
because the header did not compile, or the body calls a name with no definition. -/
inductive Fault
  | notCompiled (e : CompileError)
  | unknownCall (f : String)
deriving DecidableEq, Repr

/-! The header, line by line -/

/-- The kinds of line that occur in `spin_pause.h`. -/
inductive Line
  | pragmaOnce
  | ifDefined (m : String)
  | endif
  | includeSys (h : String)
  | namespaceOpen (n : String)
  | inlineVoidFn (n : String)
  | call (f : String)
  | closeBrace
deriving DecidableEq, Repr

/-- The text of `spin_pause.h`, with its line numbers (comments and blank lines
dropped):
```
   4  #pragma once
   6  #if defined(__x86_64__)
   7  #include <xmmintrin.h>
   8  #endif
  10  namespace onnxruntime {
  12  namespace concurrency {
  16  inline void SpinPause() {
  17  #if defined(__x86_64__)
  18    _mm_pause();
  19  #endif
  20  }
  22  }  // namespace concurrency
  24  }  // namespace onnxruntime
``` -/
def spin_pause_h : List Line :=
  [ .pragmaOnce,
    .ifDefined "__x86_64__",
    .includeSys "xmmintrin.h",
    .endif,
    .namespaceOpen "onnxruntime",
    .namespaceOpen "concurrency",
    .inlineVoidFn "SpinPause",
    .ifDefined "__x86_64__",
    .call "_mm_pause",
    .endif,
    .closeBrace,
    .closeBrace,
    .closeBrace ]

/-- Conditional inclusion.  `stack` holds the truth values of the enclosing
`#if defined(..)` groups; a line survives when all of them are true. -/
def preprocess (t : Target) : List Line → List Bool → Except CompileError (List Line)
  | [], [] => .ok []
  | [], _ :: _ => .error .unterminatedIf
  | .ifDefined m :: rest, stack => preprocess t rest (t.isDefined m :: stack)
  | .endif :: _, [] => .error .strayEndif
  | .endif :: rest, _ :: stack => preprocess t rest stack
  | l :: rest, stack =>
    if stack.all id then
      match preprocess t rest stack with
      | .ok ls => .ok (l :: ls)
      | .error e => .error e
    else preprocess t rest stack

/-- Modelled from the spec: the toolchain header `<xmmintrin.h>` is not part of the
repository; all the header relies on is that it declares the intrinsic `_mm_pause`.
Maps a system header to the names it declares. -/
def systemHeader : String → Option (List String)
  | "xmmintrin.h" => some ["_mm_pause"]
  | _ => none

/-- Modelled from the spec: the intrinsic `_mm_pause` is declared by the toolchain,
not by the repository.  Following the spec (a "hardware spin-wait hint", "purely a
hardware micro-architectural hint" that "must not alter observable program state"),
a call issues the x86 `pause` instruction and leaves the program variables alone.
No other callable name is known. -/
def callIntrinsic (f : String) (m : Machine) : Except Fault Machine :=
  if f = "_mm_pause" then .ok { m with issued := m.issued ++ [Instr.pause] }
  else .error (.unknownCall f)

/-- An open scope while reading the translation unit. -/
inductive Scope
  | ns (n : String)
  | fn (n : String)
deriving DecidableEq, Repr

/-- Front-end state: headers included so far, names declared so far, open scopes,
statements of the function being defined, and the finished function definitions. -/
structure Parse where
  includes : List String
  declared : List String
  scopes : List Scope
  body : List String
  fns : List (String × List String)
deriving Repr

/-- The empty front-end state. -/
def Parse.empty : Parse :=
  { includes := [], declared := [], scopes := [], body := [], fns := [] }

/-- Read one preprocessed line. -/
def parseLine (p : Parse) : Line → Except CompileError Parse
  | .pragmaOnce => .ok p
  | .includeSys h =>
    match systemHeader h with
    | some ds => .ok { p with includes := p.includes ++ [h], declared := p.declared ++ ds }
    | none => .error (.headerNotFound h)
  | .namespaceOpen n => .ok { p with scopes := .ns n :: p.scopes }
  | .inlineVoidFn n => .ok { p with scopes := .fn n :: p.scopes, body := [] }
  | .call f =>
    match p.scopes with
    | .fn _ :: _ =>
      if f ∈ p.declared then .ok { p with body := p.body ++ [f] }
      else .error (.undeclared f)
    | _ => .error .statementOutsideFunction
  | .closeBrace =>
    match p.scopes with
    | [] => .error .strayBrace
    | .ns _ :: r => .ok { p with scopes := r }
    | .fn n :: r =>
      .ok { p with scopes := r, fns := p.fns ++ [(n, p.body)],
                   declared := p.declared ++ [n], body := [] }
  | .ifDefined _ => .error .directiveLeft
  | .endif => .error .directiveLeft

/-- Read all preprocessed lines; every scope must be closed at the end. -/
def parseLines : Parse → List Line → Except CompileError Parse
  | p, [] => if p.scopes = [] then .ok p else .error .unclosedScope
  | p, l :: rest =>
    match parseLine p l with
    | .ok p' => parseLines p' rest
    | .error e => .error e

/-- The translation unit obtained from `spin_pause.h` on target `t`. -/
def compileHeader (t : Target) : Except CompileError Parse :=
  match preprocess t spin_pause_h [] with
  | .ok ls => parseLines Parse.empty ls
  | .error e => .error e

/-- The statements of `SpinPause` on target `t`: the names it calls, in order. -/
def spinPauseBody (t : Target) : Except CompileError (List String) :=
  match compileHeader t with
  | .ok p =>
    match p.fns.lookup "SpinPause" with
    | some b => .ok b
    | none => .error .noSpinPause
  | .error e => .error e

/-- Run a function body: its calls, one after the other. -/
def runBody : List String → Machine → Except Fault Machine
  | [], m => .ok m
  | f :: rest, m =>
    match callIntrinsic f m with
    | .ok m' => runBody rest m'
    | .error e => .error e

/-- One call of `inline void SpinPause()` on target `t` from machine state `s`.
The function returns no value, so the result of a normal return is the machine
state alone. -/
def SpinPause (t : Target) (s : Machine) : Except Fault Machine :=
  match spinPauseBody t with
  | .ok b => runBody b s
  | .error e => .error (.notCompiled e)

/-- The hardware instructions that one call of `SpinPause` issues on target `t`
(`none` when the call does not return normally). -/
def hintsIssued (t : Target) : Option (List Instr) :=
  match SpinPause t { mem := fun _ => 0, issued := [] } with
  | .ok m => some m.issued
  | .error _ => none

/-- `n` consecutive calls of `SpinPause`. -/
def spinPauseTimes (t : Target) : Nat → Machine → Except Fault Machine
  | 0, s => .ok s
  | n + 1, s =>
    match SpinPause t s with
    | .ok s' => spinPauseTimes t n s'
    | .error e => .error e

/-! Callers: threads and retry loops -/

/-- Modelled from the spec: the callers of `SpinPause` are outside the repository.
One step of a thread of the stress test of section 8: either a call of `SpinPause`,
or any other step of the thread's own code, given by its effect on the shared
program variables (for instance the increment of a shared counter). -/
inductive ThreadStep
  | spin
  | work (f : Mem → Mem)

/-- Whether a step is a call of `SpinPause`. -/
def ThreadStep.isSpin : ThreadStep → Bool
  | .spin => true
  | .work _ => false

/-- A scheduled step: the thread that takes it and the step it takes.  A list of
events is one interleaving of the steps of the threads. -/
structure Event where
  thread : Nat
  step : ThreadStep

/-- Run one scheduled step on the shared machine state. -/
def runEvent (t : Target) (m : Machine) (e : Event) : Except Fault Machine :=
  match e.step with
  | .spin => SpinPause t m
  | .work f => .ok { m with mem := f m.mem }

/-- Run an interleaving, step by step. -/
def runSchedule (t : Target) : List Event → Machine → Except Fault Machine
  | [], m => .ok m
  | e :: rest, m =>
    match runEvent t m e with
    | .ok m' => runSchedule t rest m'
    | .error err => .error err

/-- The same interleaving with every `SpinPause` step removed. -/
def dropSpins (sched : List Event) : List Event :=
  sched.filter (fun e => !e.step.isSpin)

/-- The increment of the shared counter by a worker. -/
def incrCounter : Mem → Mem :=
  fun mem v => if v = "counter" then mem v + 1 else mem v

/-- What a bounded run of a retry loop did: the state it ended in, how many times
the condition was checked, how many of the checks returned false, how many times
the loop body was called, and whether the loop was left because the condition held. -/
structure LoopRun where
  final : Machine
  checks : Nat
  falseChecks : Nat
  calls : Nat
  exited : Bool

/-- Modelled from the spec: the retry loop of section 6, which belongs to the caller,
```
while not condition_met():
    body()
```
run for at most `bound` condition checks.  `condition_met` reads the program
variables and may change them; `body` is the statement of the loop (`SpinPause`,
or nothing). -/
def retryLoop (body : Machine → Except Fault Machine) (condition_met : Mem → Bool × Mem) :
    Nat → Machine → Except Fault LoopRun
  | 0, m => .ok { final := m, checks := 0, falseChecks := 0, calls := 0, exited := false }
  | bound + 1, m =>
    let r := condition_met m.mem
    let m1 : Machine := { m with mem := r.2 }
    if r.1 then
      .ok { final := m1, checks := 1, falseChecks := 0, calls := 0, exited := true }
    else
      match body m1 with
      | .error err => .error err
      | .ok m2 =>
        match retryLoop body condition_met bound m2 with
        | .error err => .error err
        | .ok run =>
          .ok { run with checks := run.checks + 1, falseChecks := run.falseChecks + 1,
                         calls := run.calls + 1 }

/-- The empty loop body. -/
def emptyBody (m : Machine) : Except Fault Machine := .ok m

/-! Example targets and states -/

/-- GCC or Clang for x86-64 Linux. -/
def gccX64 : Target :=
  { predefined := ["__x86_64__", "__amd64__", "__linux__", "__GNUC__"], nativeHint := some .pause }

/-- MSVC for x86-64: defines `_M_X64` and `_M_AMD64`, not `__x86_64__`. -/
def msvcX64 : Target :=
  { predefined := ["_M_X64", "_M_AMD64", "_WIN64", "_MSC_VER"], nativeHint := some .pause }

/-- GCC for 32-bit x86. -/
def gccI386 : Target :=
  { predefined := ["__i386__", "__linux__", "__GNUC__"], nativeHint := some .pause }

/-- GCC or Clang for 64-bit ARM. -/
def gccAarch64 : Target :=
  { predefined := ["__aarch64__", "__linux__", "__GNUC__"], nativeHint := some .yield }

/-- A target that predefines nothing and has no spin-wait instruction. -/
def unknownTarget : Target :=
  { predefined := [], nativeHint := none }

/-- A machine state with two program variables set. -/
def sampleMachine : Machine :=
  { mem := fun v => if v = "counter" then 7 else if v = "lock" then 1 else 0, issued := [] }

/-- An interleaving of two workers that each call `SpinPause` around one increment
of the shared counter. -/
def sampleSchedule : List Event :=
  [ ⟨0, .spin⟩, ⟨1, .spin⟩, ⟨1, .work incrCounter⟩, ⟨0, .spin⟩, ⟨0, .work incrCounter⟩,
    ⟨1, .spin⟩ ]

/-- A condition that holds once the variable `lock` has dropped to zero, and that
decrements `lock` each time it is checked. -/
def lockReleased : Mem → Bool × Mem :=
  fun mem => (decide (mem "lock" ≤ 0), fun v => if v = "lock" then mem v - 1 else mem v)

/-- The counter and the issued instructions at the end of a run. -/
def observe : Except Fault Machine → Option (Int × List Instr)
  | .ok m => some (m.mem "counter", m.issued)
  | .error _ => none

/-- The counters of a loop run, with the final value of `lock` and the issued
instructions. -/
def observeLoop : Except Fault LoopRun → Option (Nat × Nat × Nat × Bool × Int × List Instr)
  | .ok r => some (r.checks, r.falseChecks, r.calls, r.exited, r.final.mem "lock", r.final.issued)
  | .error _ => none

/-! Evaluation on the example targets -/

/-- The body of `SpinPause` on the example targets. -/
theorem spinPauseBody_examples :
    spinPauseBody gccX64 = .ok ["_mm_pause"] ∧ spinPauseBody msvcX64 = .ok [] ∧
      spinPauseBody gccI386 = .ok [] ∧ spinPauseBody gccAarch64 = .ok [] ∧
      spinPauseBody unknownTarget = .ok [] :=
  ⟨rfl, rfl, rfl, rfl, rfl⟩

/-- The instructions issued by one call on the example targets. -/
theorem hintsIssued_examples :
    hintsIssued gccX64 = some [.pause] ∧ hintsIssued msvcX64 = some [] ∧
      hintsIssued gccI386 = some [] ∧ hintsIssued gccAarch64 = some [] ∧
      hintsIssued unknownTarget = some [] := by
  decide

/-- The sample interleaving ends with the counter raised by two, with and without
its `SpinPause` steps; on x86-64 the four calls issue four `pause`. -/
theorem sampleSchedule_example :
    observe (runSchedule gccX64 sampleSchedule sampleMachine) =
        some (9, [.pause, .pause, .pause, .pause]) ∧
      observe (runSchedule gccX64 (dropSpins sampleSchedule) sampleMachine) = some (9, []) ∧
      observe (runSchedule gccAarch64 sampleSchedule sampleMachine) = some (9, []) := by
  decide

/-- From `lock = 1` the loop checks twice, the first check fails, and `SpinPause`
is called once. -/
theorem retryLoop_example :
    observeLoop (retryLoop (SpinPause gccX64) lockReleased 5 sampleMachine) =
        some (2, 1, 1, true, -1, [.pause]) ∧
      observeLoop (retryLoop emptyBody lockReleased 5 sampleMachine) =
        some (2, 1, 1, true, -1, []) ∧
      observeLoop (retryLoop (SpinPause gccX64) lockReleased 1 sampleMachine) =
        some (1, 1, 1, false, 0, [.pause]) :=
  ⟨rfl, rfl, rfl⟩

/-! The two shapes of the translation unit -/

/-- The lines of the header that survive when `__x86_64__` is defined. -/
theorem preprocess_of_defined (t : Target) (h : t.isDefined "__x86_64__" = true) :
    preprocess t spin_pause_h [] =
      .ok [ .pragmaOnce, .includeSys "xmmintrin.h", .namespaceOpen "onnxruntime",
            .namespaceOpen "concurrency", .inlineVoidFn "SpinPause", .call "_mm_pause",
            .closeBrace, .closeBrace, .closeBrace ] := by
  simp [spin_pause_h, preprocess, h]

/-- The lines of the header that survive when `__x86_64__` is not defined. -/
theorem preprocess_of_not_defined (t : Target) (h : t.isDefined "__x86_64__" = false) :
    preprocess t spin_pause_h [] =
      .ok [ .pragmaOnce, .namespaceOpen "onnxruntime",
            .namespaceOpen "concurrency", .inlineVoidFn "SpinPause",
            .closeBrace, .closeBrace, .closeBrace ] := by
  simp [spin_pause_h, preprocess, h]

/-- With `__x86_64__` defined the unit includes `<xmmintrin.h>` and `SpinPause`
consists of the single statement `_mm_pause();`. -/
theorem compileHeader_of_defined (t : Target) (h : t.isDefined "__x86_64__" = true) :
    compileHeader t =
      .ok { includes := ["xmmintrin.h"], declared := ["_mm_pause", "SpinPause"],
            scopes := [], body := [], fns := [("SpinPause", ["_mm_pause"])] } := by
  simp [compileHeader, preprocess_of_defined t h, parseLines, parseLine, systemHeader,
    Parse.empty]

/-- Without `__x86_64__` the unit includes nothing and `SpinPause` has no statement. -/
theorem compileHeader_of_not_defined (t : Target) (h : t.isDefined "__x86_64__" = false) :
    compileHeader t =
      .ok { includes := [], declared := ["SpinPause"],
            scopes := [], body := [], fns := [("SpinPause", [])] } := by
  simp [compileHeader, preprocess_of_not_defined t h, parseLines, parseLine, Parse.empty]

/-- Body of `SpinPause` with `__x86_64__` defined. -/
theorem spinPauseBody_of_defined (t : Target) (h : t.isDefined "__x86_64__" = true) :
    spinPauseBody t = .ok ["_mm_pause"] := by
  simp [spinPauseBody, compileHeader_of_defined t h, List.lookup]

/-- Body of `SpinPause` without `__x86_64__`. -/
theorem spinPauseBody_of_not_defined (t : Target) (h : t.isDefined "__x86_64__" = false) :
    spinPauseBody t = .ok [] := by
  simp [spinPauseBody, compileHeader_of_not_defined t h, List.lookup]

/-- One call with `__x86_64__` defined: a `pause` is issued, nothing else changes. -/
theorem SpinPause_of_defined (t : Target) (s : Machine)
    (h : t.isDefined "__x86_64__" = true) :
    SpinPause t s = .ok { s with issued := s.issued ++ [Instr.pause] } := by
  simp [SpinPause, spinPauseBody_of_defined t h, runBody, callIntrinsic]

/-- One call without `__x86_64__`: the machine state is returned as it was. -/
theorem SpinPause_of_not_defined (t : Target) (s : Machine)
    (h : t.isDefined "__x86_64__" = false) :
    SpinPause t s = .ok s := by
  simp [SpinPause, spinPauseBody_of_not_defined t h, runBody]

/-- In both cases a call returns normally and only extends the instruction trace. -/
theorem SpinPause_eq (t : Target) (s : Machine) :
    SpinPause t s =
      .ok { s with issued := s.issued ++
              (if t.isDefined "__x86_64__" then [Instr.pause] else []) } := by
  cases h : t.isDefined "__x86_64__"
  · simp [SpinPause_of_not_defined t s h]
  · simp [SpinPause_of_defined t s h]

/-- The test `defined(m)` in terms of the list of predefined names. -/
theorem isDefined_eq_true_iff (t : Target) (m : String) :
    t.isDefined m = true ↔ m ∈ t.predefined := by
  simp [Target.isDefined]

/-- The failing test `defined(m)` in terms of the list of predefined names. -/
theorem isDefined_eq_false_iff (t : Target) (m : String) :
    t.isDefined m = false ↔ m ∉ t.predefined := by
  simp [Target.isDefined]

/-- Instructions issued by one call, with `__x86_64__` defined. -/
theorem hintsIssued_of_defined (t : Target) (h : t.isDefined "__x86_64__" = true) :
    hintsIssued t = some [Instr.pause] := by
  simp [hintsIssued, SpinPause_of_defined t _ h]

/-- Instructions issued by one call, without `__x86_64__`. -/
theorem hintsIssued_of_not_defined (t : Target) (h : t.isDefined "__x86_64__" = false) :
    hintsIssued t = some [] := by
  simp [hintsIssued, SpinPause_of_not_defined t _ h]

/-- With `__x86_64__` defined, `n` calls issue `n` times `pause` and change nothing else. -/
theorem spinPauseTimes_of_defined (t : Target) (h : t.isDefined "__x86_64__" = true)
    (n : Nat) (s : Machine) :
    spinPauseTimes t n s = .ok { s with issued := s.issued ++ List.replicate n Instr.pause } := by
  induction n generalizing s with
  | zero => simp [spinPauseTimes]
  | succ k ih =>
    simp [spinPauseTimes, SpinPause_of_defined t s h, ih, List.replicate_succ]

/-- Without `__x86_64__`, `n` calls return the machine state as it was. -/
theorem spinPauseTimes_of_not_defined (t : Target) (h : t.isDefined "__x86_64__" = false)
    (n : Nat) (s : Machine) :
    spinPauseTimes t n s = .ok s := by
  induction n generalizing s with
  | zero => simp [spinPauseTimes]
  | succ k ih => simp [spinPauseTimes, SpinPause_of_not_defined t s h, ih]

/-- An interleaving and the same interleaving without its `SpinPause` steps, run
from machine states with the same program variables, both run to the end and end
with the same program variables. -/
theorem runSchedule_dropSpins_mem (t : Target) (sched : List Event) (m m0 : Machine)
    (hm : m.mem = m0.mem) :
    ∃ m1 m2, runSchedule t sched m = .ok m1 ∧
      runSchedule t (dropSpins sched) m0 = .ok m2 ∧ m1.mem = m2.mem := by
  induction sched generalizing m m0 with
  | nil => exact ⟨m, m0, by simp [runSchedule], by simp [dropSpins, runSchedule], hm⟩
  | cons e rest ih =>
    obtain ⟨tid, step⟩ := e
    cases step with
    | spin =>
      have hrun : runSchedule t (⟨tid, .spin⟩ :: rest) m =
          runSchedule t rest { m with issued := m.issued ++
            (if t.isDefined "__x86_64__" then [Instr.pause] else []) } := by
        simp [runSchedule, runEvent, SpinPause_eq]
      have hdrop : dropSpins (⟨tid, .spin⟩ :: rest) = dropSpins rest := by
        simp [dropSpins, ThreadStep.isSpin]
      rw [hrun, hdrop]
      exact ih _ m0 hm
    | work f =>
      have hrun : runSchedule t (⟨tid, .work f⟩ :: rest) m =
          runSchedule t rest { m with mem := f m.mem } := by
        simp [runSchedule, runEvent]
      have hdrop : dropSpins (⟨tid, .work f⟩ :: rest) = ⟨tid, .work f⟩ :: dropSpins rest := by
        simp [dropSpins, ThreadStep.isSpin]
      have hrun0 : runSchedule t (⟨tid, .work f⟩ :: dropSpins rest) m0 =
          runSchedule t (dropSpins rest) { m0 with mem := f m0.mem } := by
        simp [runSchedule, runEvent]
      rw [hrun, hdrop, hrun0]
      exact ih _ _ (by simp [hm])

/-- The retry loop with `SpinPause` as its body and the loop with the empty body,
run from machine states with the same program variables. -/
theorem retryLoop_SpinPause_vs_empty (t : Target) (condition_met : Mem → Bool × Mem)
    (bound : Nat) (m m0 : Machine) (hm : m.mem = m0.mem) :
    ∃ r r0, retryLoop (SpinPause t) condition_met bound m = .ok r ∧
      retryLoop emptyBody condition_met bound m0 = .ok r0 ∧
      r.final.mem = r0.final.mem ∧ r.checks = r0.checks ∧ r.exited = r0.exited ∧
      r.falseChecks = r0.falseChecks ∧ r.calls = r.falseChecks ∧
      r.final.issued = m.issued ++
        List.replicate (if t.isDefined "__x86_64__" then r.calls else 0) Instr.pause := by
  induction bound generalizing m m0 with
  | zero =>
    refine ⟨{ final := m, checks := 0, falseChecks := 0, calls := 0, exited := false },
            { final := m0, checks := 0, falseChecks := 0, calls := 0, exited := false },
            by simp [retryLoop], by simp [retryLoop], ?_⟩
    simp [hm]
  | succ k ih =>
    cases hc : (condition_met m0.mem).1 with
    | true =>
      refine ⟨{ final := { m with mem := (condition_met m0.mem).2 }, checks := 1,
                falseChecks := 0, calls := 0, exited := true },
              { final := { m0 with mem := (condition_met m0.mem).2 }, checks := 1,
                falseChecks := 0, calls := 0, exited := true },
              by simp [retryLoop, hm, hc], by simp [retryLoop, hc], ?_⟩
      simp
    | false =>
      obtain ⟨r, r0, h1, h2, h3, h4, h5, h6, h7, h8⟩ :=
        ih { mem := (condition_met m0.mem).2, issued := m.issued ++
            (if t.isDefined "__x86_64__" then [Instr.pause] else []) }
          { m0 with mem := (condition_met m0.mem).2 } rfl
      refine ⟨{ r with checks := r.checks + 1, falseChecks := r.falseChecks + 1,
                       calls := r.calls + 1 },
              { r0 with checks := r0.checks + 1, falseChecks := r0.falseChecks + 1,
                        calls := r0.calls + 1 }, ?_, ?_, ?_⟩
      · simp [retryLoop, hm, hc, SpinPause_eq, h1]
      · simp [retryLoop, hc, emptyBody, h2]
      · refine ⟨h3, by simp [h4], h5, by simp [h6], by simp [h7], ?_⟩
        rw [h8]
        cases hd : t.isDefined "__x86_64__" <;> simp [List.replicate_succ]

/-! The claims -/

/-- C1: on every target and from every machine state `s`, one call of `SpinPause`
returns, and the program variables after the call are those of `s`: no variable
is changed. -/
theorem SpinPause_preserves_variables (t : Target) (s : Machine) :
    ∃ s', SpinPause t s = .ok s' ∧ s'.mem = s.mem := by
  exact ⟨_, SpinPause_eq t s, rfl⟩

/-- C2: on every target that does not predefine `__x86_64__` (whatever else it
predefines), the body of `SpinPause` is empty, a call issues no instruction, and a
call returns the machine state exactly as it was. -/
theorem SpinPause_empty_without_x86_64 (t : Target) (h : "__x86_64__" ∉ t.predefined) :
    spinPauseBody t = .ok [] ∧ hintsIssued t = some [] ∧
      ∀ s : Machine, SpinPause t s = .ok s := by
  have hd := (isDefined_eq_false_iff t "__x86_64__").mpr h
  exact ⟨spinPauseBody_of_not_defined t hd, hintsIssued_of_not_defined t hd,
    fun s => SpinPause_of_not_defined t s hd⟩

/-- Witness of C2 on the 64-bit ARM target. -/
theorem SpinPause_empty_without_x86_64_witness :
    "__x86_64__" ∉ gccAarch64.predefined ∧
      (spinPauseBody gccAarch64 = .ok [] ∧ hintsIssued gccAarch64 = some [] ∧
        ∀ s : Machine, SpinPause gccAarch64 s = .ok s) :=
  ⟨by decide, SpinPause_empty_without_x86_64 gccAarch64 (by decide)⟩

/-- C3: on a target that predefines `__x86_64__`, the body of `SpinPause` is the
single statement `_mm_pause();`, and one call issues exactly one `pause`
instruction and changes nothing else. -/
theorem SpinPause_one_pause_on_x86_64 (t : Target) (h : "__x86_64__" ∈ t.predefined) :
    spinPauseBody t = .ok ["_mm_pause"] ∧ hintsIssued t = some [Instr.pause] ∧
      ∀ s : Machine, SpinPause t s = .ok { s with issued := s.issued ++ [Instr.pause] } := by
  have hd := (isDefined_eq_true_iff t "__x86_64__").mpr h
  exact ⟨spinPauseBody_of_defined t hd, hintsIssued_of_defined t hd,
    fun s => SpinPause_of_defined t s hd⟩

/-- Witness of C3 on the x86-64 GCC target. -/
theorem SpinPause_one_pause_on_x86_64_witness :
    "__x86_64__" ∈ gccX64.predefined ∧
      (spinPauseBody gccX64 = .ok ["_mm_pause"] ∧ hintsIssued gccX64 = some [Instr.pause] ∧
        ∀ s : Machine, SpinPause gccX64 s = .ok { s with issued := s.issued ++ [Instr.pause] }) :=
  ⟨by decide, SpinPause_one_pause_on_x86_64 gccX64 (by decide)⟩

/-- C4, counterexample: under MSVC for x86-64 the architecture offers `pause` and
the toolchain exposes it, yet `__x86_64__` is not predefined and a call of
`SpinPause` issues no instruction; so it is not true that `SpinPause` issues the
dedicated spin-wait instruction of every target that has one. -/
theorem SpinPause_no_hint_on_msvcX64 :
    msvcX64.nativeHint = some Instr.pause ∧ "__x86_64__" ∉ msvcX64.predefined ∧
      hintsIssued msvcX64 = some [] ∧
      ¬ (∀ t : Target, ∀ i : Instr, t.nativeHint = some i → hintsIssued t = some [i]) := by
  have h : hintsIssued msvcX64 = some [] :=
    hintsIssued_of_not_defined msvcX64 (by decide)
  refine ⟨rfl, by decide, h, fun hall => ?_⟩
  have h2 := hall msvcX64 Instr.pause rfl
  rw [h] at h2
  exact absurd h2 (by decide)

/-- C4, amended: `SpinPause` issues a spin-wait instruction, the x86 `pause`,
exactly on the targets that predefine `__x86_64__`; on every other target it
issues nothing, whether or not the target has a dedicated spin-wait instruction. -/
theorem SpinPause_hint_iff_x86_64 (t : Target) :
    (hintsIssued t = some [Instr.pause] ↔ "__x86_64__" ∈ t.predefined) ∧
      (hintsIssued t = some [] ↔ "__x86_64__" ∉ t.predefined) := by
  cases hd : t.isDefined "__x86_64__"
  · have hn := (isDefined_eq_false_iff t "__x86_64__").mp hd
    simp [hintsIssued_of_not_defined t hd, hn]
  · have hn := (isDefined_eq_true_iff t "__x86_64__").mp hd
    simp [hintsIssued_of_defined t hd, hn]

/-- C5: on every target the header compiles to a body for `SpinPause`, and from
every machine state a call returns normally: the result is never a fault. -/
theorem SpinPause_returns (t : Target) (s : Machine) :
    (∃ b, spinPauseBody t = .ok b) ∧ (∃ s', SpinPause t s = .ok s') ∧
      ∀ f : Fault, SpinPause t s ≠ .error f := by
  refine ⟨?_, ⟨_, SpinPause_eq t s⟩, fun f hf => ?_⟩
  · cases hd : t.isDefined "__x86_64__"
    · exact ⟨_, spinPauseBody_of_not_defined t hd⟩
    · exact ⟨_, spinPauseBody_of_defined t hd⟩
  · rw [SpinPause_eq] at hf
    cases hf

/-- C6: on every target, from every machine state `s` and for every `n ≥ 1`, the
program variables after `n` consecutive calls of `SpinPause` are the program
variables after one call. -/
theorem spinPauseTimes_variables_eq_once (t : Target) (s : Machine) (n : Nat) (hn : 1 ≤ n) :
    ∃ sN s1, spinPauseTimes t n s = .ok sN ∧ SpinPause t s = .ok s1 ∧ sN.mem = s1.mem := by
  have _ := hn
  cases hd : t.isDefined "__x86_64__"
  · exact ⟨_, _, spinPauseTimes_of_not_defined t hd n s, SpinPause_of_not_defined t s hd, rfl⟩
  · exact ⟨_, _, spinPauseTimes_of_defined t hd n s, SpinPause_of_defined t s hd, rfl⟩

/-- Witness of C6: three calls on the x86-64 GCC target. -/
theorem spinPauseTimes_variables_eq_once_witness :
    1 ≤ 3 ∧ ∃ sN s1, spinPauseTimes gccX64 3 sampleMachine = .ok sN ∧
      SpinPause gccX64 sampleMachine = .ok s1 ∧ sN.mem = s1.mem :=
  ⟨by decide, spinPauseTimes_variables_eq_once gccX64 sampleMachine 3 (by decide)⟩

/-- C8: on every target, every interleaving of thread steps, in which any thread
may call `SpinPause` at any point between steps that act on the shared program
variables, runs to its end from every machine state (no step blocks or faults),
and it ends with the same shared program variables as the same interleaving with
every `SpinPause` step removed. -/
theorem runSchedule_variables_eq_dropSpins (t : Target) (sched : List Event) (m : Machine) :
    ∃ m1 m2, runSchedule t sched m = .ok m1 ∧
      runSchedule t (dropSpins sched) m = .ok m2 ∧ m1.mem = m2.mem :=
  runSchedule_dropSpins_mem t sched m m rfl

/-- C9: for every condition (which may read and change the program variables),
every bound on the number of condition checks and every start state, the retry
loop whose body is `SpinPause` and the loop with the empty body both run to the
end of the bound or to the first successful check, end with the same program
variables after the same number of checks (and the same number of failed checks,
leaving the loop the same way); `SpinPause` is called once per failed check; and
the instructions issued are one `pause` per call where `__x86_64__` is defined and
none elsewhere. -/
theorem retryLoop_SpinPause_eq_empty (t : Target) (condition_met : Mem → Bool × Mem)
    (bound : Nat) (m : Machine) :
    ∃ r r0, retryLoop (SpinPause t) condition_met bound m = .ok r ∧
      retryLoop emptyBody condition_met bound m = .ok r0 ∧
      r.final.mem = r0.final.mem ∧ r.checks = r0.checks ∧ r.exited = r0.exited ∧
      r.falseChecks = r0.falseChecks ∧ r.calls = r.falseChecks ∧
      r.final.issued = m.issued ++
        List.replicate (if t.isDefined "__x86_64__" then r.calls else 0) Instr.pause :=
  retryLoop_SpinPause_vs_empty t condition_met bound m m rfl

/-- C10: for every set of predefined names the header compiles, and in the
resulting unit the body of `SpinPause` calls `_mm_pause` if and only if
`<xmmintrin.h>` was included, both being the case exactly when `__x86_64__` is
predefined. -/
theorem spin_pause_h_compiles (t : Target) :
    ∃ p b, compileHeader t = .ok p ∧ p.fns.lookup "SpinPause" = some b ∧
      ("_mm_pause" ∈ b ↔ "xmmintrin.h" ∈ p.includes) ∧
      ("_mm_pause" ∈ b ↔ "__x86_64__" ∈ t.predefined) ∧
      ("xmmintrin.h" ∈ p.includes ↔ "__x86_64__" ∈ t.predefined) := by
  cases hd : t.isDefined "__x86_64__"
  · have hn := (isDefined_eq_false_iff t "__x86_64__").mp hd
    exact ⟨_, [], compileHeader_of_not_defined t hd, by simp [List.lookup], by simp,
      by simp [hn], by simp [hn]⟩
  · have hn := (isDefined_eq_true_iff t "__x86_64__").mp hd
    exact ⟨_, ["_mm_pause"], compileHeader_of_defined t hd, by simp [List.lookup], by simp,
      by simp [hn], by simp [hn]⟩

end concurrency
end onnxruntime
